import Mathlib

/-!
Verification of core behavioral claims about the aemeath companion program:
the time-range matcher, presence detector, mood system, FSM state machine,
script selection engine and the audio playback scheduler, shallowly embedded
from the Python sources under `src/`.

Python strings are modelled as `List Char` (`PyStr`) so that every string
operation is a structurally recursive function the kernel can evaluate;
`pyStrip`, `pyLower`, `splitOnChar`, `splitFirstOn` and `pyInt` mirror the
Python `str.strip`, `str.lower`, `str.split(sep)`, `str.split(sep, 1)` and
`int(...)` semantics used by the sources (restricted to the ASCII forms the
program actually feeds them).
-/

set_option maxHeartbeats 1000000

namespace Aemeath

/-! ## Python string primitives -/

abbrev PyStr := List Char

/-- ASCII whitespace recognized by Python's default `str.strip`. -/
def pyIsSpace (c : Char) : Bool :=
  c = ' ' ∨ c = '\t' ∨ c = '\n' ∨ c = '\r' ∨ c = Char.ofNat 11 ∨ c = Char.ofNat 12

/-- Model of `str.strip()`. -/
def pyStrip (s : PyStr) : PyStr :=
  ((s.dropWhile pyIsSpace).reverse.dropWhile pyIsSpace).reverse

/-- Model of `str.lower()` (ASCII). -/
def pyLower (s : PyStr) : PyStr := s.map Char.toLower

/-- Model of `str.split(sep)` for a one-character separator: `"".split` is
`[""]`, and every separator occurrence opens a new segment. -/
def splitOnChar (c : Char) : PyStr → List PyStr
  | [] => [[]]
  | x :: xs =>
    match splitOnChar c xs with
    | [] => [[]]
    | h :: t => if x = c then [] :: h :: t else (x :: h) :: t

/-- Model of `str.split(sep, 1)` for a one-character separator, as the pair
(before, after) of the first occurrence; `none` when the separator is
absent. -/
def splitFirstOn (c : Char) : PyStr → Option (PyStr × PyStr)
  | [] => none
  | x :: xs =>
    if x = c then some ([], xs)
    else (splitFirstOn c xs).map (fun p => (x :: p.1, p.2))

/-- Decimal digit run to a number; `none` on the empty string or any
non-digit character (a Python `ValueError`). -/
def digitsToNat : PyStr → Option Nat
  | [] => none
  | cs =>
    if cs.all Char.isDigit then
      some (cs.foldl (fun acc c => acc * 10 + (c.toNat - '0'.toNat)) 0)
    else none

/-- Model of Python `int(...)`: surrounding whitespace ignored, optional
sign, decimal digits (digit-group underscores and non-ASCII digits are
outside the modelled scope). -/
def pyInt (s : PyStr) : Option Int :=
  match pyStrip s with
  | '-' :: rest => (digitsToNat rest).map (fun n => -(n : Int))
  | '+' :: rest => (digitsToNat rest).map (fun n => (n : Int))
  | t => (digitsToNat t).map (fun n => (n : Int))

/-! ## Time model

Python `datetime` values are modelled at minute granularity (no claim in
scope inspects seconds): a `DateTime` is an absolute count of minutes, from
which hour-of-day and minute-of-hour are derived exactly as a calendar
clock would. -/

structure DateTime where
  absMinutes : Nat
deriving DecidableEq

def DateTime.hour (t : DateTime) : Nat := t.absMinutes % 1440 / 60

def DateTime.minute (t : DateTime) : Nat := t.absMinutes % 1440 % 60

/-- Minutes-of-day of a `DateTime`, i.e. `now.hour * 60 + now.minute`
as computed in `src/core/time_range.py`. -/
def DateTime.minutesOfDay (t : DateTime) : Nat := t.hour * 60 + t.minute

/-- Convenience constructor: the time of day `h:m` (on day zero). -/
def timeOfDay (h m : Nat) : DateTime := ⟨h * 60 + m⟩

/-! ## `src/core/time_range.py` -/

/-- Embedding of `_to_minutes` from `src/core/time_range.py`: strip, split
on ":", require exactly two fields, parse both, bounds-check
`0 <= hh < 24` and `0 <= mm < 60`; a parse or unpack failure is a Python
`ValueError`, modelled as `none`. -/
def toMinutes (value : PyStr) : Option Int :=
  match splitOnChar ':' (pyStrip value) with
  | [hhStr, mmStr] =>
    match pyInt hhStr, pyInt mmStr with
    | some hh, some mm =>
      if 0 ≤ hh ∧ hh < 24 ∧ 0 ≤ mm ∧ mm < 60 then some (hh * 60 + mm) else none
    | _, _ => none
  | _ => none

/-- Embedding of `matches_time_range` from `src/core/time_range.py`.
`(time_range or "default")` maps the empty string to `"default"`; the
source's `"-" not in value` guard followed by `value.split("-", 1)` is the
`splitFirstOn` match (`none` exactly when no "-" occurs). -/
def matches_time_range (time_range : PyStr) (now : DateTime) : Bool :=
  let value := pyLower (pyStrip (if time_range = [] then "default".toList else time_range))
  if value = "default".toList then true
  else
    match splitFirstOn '-' value with
    | none => false
    | some (startText, endText) =>
      match toMinutes startText, toMinutes endText with
      | some startMinutes, some endMinutes =>
        let current : Int := (now.hour : Int) * 60 + now.minute
        if startMinutes ≤ endMinutes then
          decide (startMinutes ≤ current ∧ current < endMinutes)
        else
          decide (current ≥ startMinutes ∨ current < endMinutes)
      | _, _ => false

/-- Embedding of `is_default_time_range` from `src/core/time_range.py`. -/
def is_default_time_range (time_range : PyStr) : Bool :=
  pyLower (pyStrip (if time_range = [] then "default".toList else time_range))
    = "default".toList

/-! ## `src/core/presence_detector.py` -/

inductive PresenceState where
  | PRESENT_ACTIVE
  | PRESENT_PASSIVE
  | ABSENT
  | UNKNOWN
deriving DecidableEq

/-- `GazeData` from `src/ai/gaze_tracker.py` (floats modelled as ℚ). -/
structure GazeData where
  face_detected : Bool := false
  face_x : ℚ := 0
  face_y : ℚ := 0
  confidence : ℚ := 0
  emotion_label : PyStr := "neutral".toList
  emotion_score : ℚ := 0
deriving DecidableEq

def IDLE_THRESHOLD_MS : Int := 300000

def FACE_ABSENT_FRAMES : Nat := 30

/-- Embedding of `PresenceDetector.determine_presence`; the instance field
`_face_absent_count` is passed and returned explicitly. -/
def determine_presence (face_absent_count : Nat) (idle_time_ms : Int)
    (gaze_data : Option GazeData) : PresenceState × Nat :=
  if idle_time_ms < 60000 then
    (PresenceState.PRESENT_ACTIVE, face_absent_count)
  else
    match gaze_data with
    | none => (PresenceState.UNKNOWN, face_absent_count)
    | some g =>
      let count := if ¬ g.face_detected then face_absent_count + 1 else 0
      if idle_time_ms ≥ IDLE_THRESHOLD_MS then
        if count ≥ FACE_ABSENT_FRAMES then (PresenceState.ABSENT, count)
        else if g.face_detected then (PresenceState.PRESENT_PASSIVE, count)
        else (PresenceState.UNKNOWN, count)
      else
        (PresenceState.UNKNOWN, count)

/-! ## `src/core/mood_system.py`

Python floats are modelled as rationals; the claims in scope are about the
clamping structure of the operations, which is exact in either carrier. -/

/-- `MoodSystem.__init__`: the initial mood is clamped into `[0, 1]`. -/
def moodInit (initial_mood : ℚ) : ℚ := max 0 (min 1 initial_mood)

/-- `MoodSystem.on_dismissed`. -/
def on_dismissed (mood : ℚ) : ℚ := max 0 (mood - 5/100)

/-- `MoodSystem.on_interacted`. -/
def on_interacted (mood : ℚ) : ℚ := min 1 (mood + 1/10)

/-- `MoodSystem.on_engaged`. -/
def on_engaged (mood : ℚ) : ℚ := min 1 (mood + 15/100)

/-- `MoodSystem.natural_decay`. -/
def natural_decay (mood : ℚ) : ℚ :=
  if mood > 1/2 then max (1/2) (mood - 2/100)
  else if mood < 1/2 then min (1/2) (mood + 2/100)
  else mood

/-- The four mutating operations of `MoodSystem`, as events. -/
inductive MoodEvent where
  | dismissed
  | interacted
  | engaged
  | decay
deriving DecidableEq

def moodStep (mood : ℚ) : MoodEvent → ℚ
  | .dismissed => on_dismissed mood
  | .interacted => on_interacted mood
  | .engaged => on_engaged mood
  | .decay => natural_decay mood

/-- The mood value reached from initial value `init` after a sequence of
operations: every reachable `MoodSystem` state is of this form. -/
def moodRun (init : ℚ) (events : List MoodEvent) : ℚ :=
  events.foldl moodStep (moodInit init)

/-! ## `src/core/state_machine.py` -/

inductive EntityState where
  | HIDDEN
  | PEEKING
  | ENGAGED
  | FLEEING
deriving DecidableEq

/-- `StateMachine.VALID_TRANSITIONS`: the dict covers all four states, so
the `dict.get(current, [])` default is never exercised. -/
def VALID_TRANSITIONS : EntityState → List EntityState
  | .HIDDEN => [.PEEKING, .ENGAGED]
  | .PEEKING => [.ENGAGED, .FLEEING, .HIDDEN]
  | .ENGAGED => [.FLEEING, .HIDDEN]
  | .FLEEING => [.HIDDEN]

/-- The callback registry built by `register_state_handler`: per state an
optional exit and enter callback. Callbacks are opaque side effects,
identified by a `Nat` tag; `none` models both "no handler registered" and
a non-callable entry (the source guards with `callable(...)`). -/
structure SMConfig where
  exitCb : EntityState → Option Nat
  enterCb : EntityState → Option Nat

/-- Observable side effects of one `transition_to` call, in order. -/
inductive SMEffect where
  | exited (state : EntityState) (cb : Nat)
  | entered (state : EntityState) (cb : Nat)
  | stateChanged (old new : EntityState)
deriving DecidableEq

/-- Embedding of `StateMachine.transition_to`: result is
(returned bool, new current state, ordered list of emitted effects). -/
def transition_to (cfg : SMConfig) (current new_state : EntityState) :
    Bool × EntityState × List SMEffect :=
  if new_state = current then (true, current, [])
  else if ¬ new_state ∈ VALID_TRANSITIONS current then (false, current, [])
  else
    let exitEff := match cfg.exitCb current with
      | some c => [SMEffect.exited current c]
      | none => []
    let enterEff := match cfg.enterCb new_state with
      | some c => [SMEffect.entered new_state c]
      | none => []
    (true, new_state, exitEff ++ enterEff ++ [SMEffect.stateChanged current new_state])

/-! ## `src/core/script_engine.py` -/

/-- `Script` from `src/core/asset_manager.py` (floats as ℚ, strings as
`PyStr`). -/
structure Script where
  id : PyStr
  text : PyStr
  audio_path : Option PyStr := none
  anim_speed : PyStr := "normal".toList
  priority : Int := 2
  time_range : PyStr := "default".toList
  probability : ℚ := 1
  sprite_path : Option PyStr := none
  cooldown_minutes : Int := 0
  tags : List PyStr := []
  event_type : PyStr := "idle".toList
deriving DecidableEq

/-- `ScriptEngine`'s mutable selection memory: the `_last_played`
timestamp dict and `_last_script_id`. -/
structure ScriptEngineState where
  lastPlayed : PyStr → Option DateTime
  lastScriptId : Option PyStr

def is_time_match (script : Script) (now : DateTime) : Bool :=
  matches_time_range script.time_range now

def is_default_range (script : Script) : Bool :=
  is_default_time_range script.time_range

/-- Embedding of `ScriptEngine._is_cooling_down`; `now < last +
timedelta(minutes=c)` at the minute granularity of the time model. -/
def is_cooling_down (st : ScriptEngineState) (script : Script) (now : DateTime) : Bool :=
  if script.cooldown_minutes ≤ 0 then false
  else
    match st.lastPlayed script.id with
    | none => false
    | some last =>
      decide ((now.absMinutes : Int) < (last.absMinutes : Int) + script.cooldown_minutes)

/-- Embedding of `ScriptEngine._filter_candidates`. -/
def filter_candidates (st : ScriptEngineState) (source : List Script) (now : DateTime)
    (avoid_repeat honor_cooldown : Bool) (total_source_size : Nat) : List Script :=
  source.filter fun script =>
    if ¬ is_time_match script now then false
    else if honor_cooldown && is_cooling_down st script now then false
    else if avoid_repeat && (st.lastScriptId == some script.id) && decide (total_source_size > 1)
      then false
    else true

/-- Embedding of `ScriptEngine._select_script`. The weighted random draw
`_weighted_random` (`random.choices` with weights `max(probability, 0.01)`)
is abstracted as an arbitrary choice function `pick`, applied only to the
final non-empty candidate list; no claim in scope concerns the
distribution of the draw. Returns the selection and the updated engine
state. -/
def select_script (st : ScriptEngineState) (source : List Script) (now : DateTime)
    (avoid_repeat honor_cooldown : Bool) (pick : List Script → Script) :
    Option Script × ScriptEngineState :=
  if source = [] then (none, st)
  else
    let exact_matches := source.filter fun s => is_time_match s now && ! is_default_range s
    let default_matches := source.filter fun s => is_default_range s
    let primary_pool :=
      if exact_matches ≠ [] then exact_matches
      else if default_matches ≠ [] then default_matches
      else source
    let candidates0 :=
      filter_candidates st primary_pool now avoid_repeat honor_cooldown source.length
    let candidates1 :=
      if candidates0 = [] ∧ exact_matches ≠ [] ∧ default_matches ≠ [] then
        filter_candidates st default_matches now avoid_repeat honor_cooldown source.length
      else candidates0
    let candidates2 :=
      if candidates1 = [] then
        filter_candidates st
          (if exact_matches ≠ [] ∧ default_matches ≠ [] then default_matches else primary_pool)
          now false honor_cooldown source.length
      else candidates1
    if candidates2 = [] then (none, st)
    else
      let selected := pick candidates2
      (some selected,
        { lastPlayed := fun i => if i = selected.id then some now else st.lastPlayed i,
          lastScriptId := some selected.id })

/-- The `exact_matches` pool of `_select_script` (statement-side name for
the corresponding `let` in `select_script`). -/
def exactPool (source : List Script) (now : DateTime) : List Script :=
  source.filter fun s => is_time_match s now && ! is_default_range s

/-- The `default_matches` pool of `_select_script`. -/
def defaultPool (source : List Script) : List Script :=
  source.filter fun s => is_default_range s

/-- The `primary_pool` of `_select_script`. -/
def primaryPool (source : List Script) (now : DateTime) : List Script :=
  if exactPool source now ≠ [] then exactPool source now
  else if defaultPool source ≠ [] then defaultPool source
  else source

/-! ## `src/core/audio_manager.py`

The Python `heapq` heaps are represented by their sorted contents: `heapq`
guarantees that `heappop` returns the smallest element, tuples compare
lexicographically, and the `order` component (`_task_seq`, strictly
incremented per request) is unique across live entries, so the
`(priority, order)` components always decide a comparison. `heappush` is
therefore modelled as ordered insertion by `(priority, order)` and
`heappop` as taking the head. -/

/-- `PlaybackItem`: one entry `(priority, order, path, token)` of
`_playback_heap`. -/
structure PlaybackItem where
  priority : Int
  order : Nat
  path : PyStr
  token : Nat
deriving DecidableEq

/-- `AudioManager._SpeechTask`. -/
structure SpeechTask where
  text : PyStr
  priority : Int
  interrupt : Bool
  token : Nat
  order : Nat
deriving DecidableEq

/-- The heap ordering on playback items: lexicographic on
`(priority, order)`. -/
def itemLe (a b : PlaybackItem) : Prop :=
  a.priority < b.priority ∨ (a.priority = b.priority ∧ a.order ≤ b.order)

/-- Strict version of `itemLe`. -/
def itemLt (a b : PlaybackItem) : Prop :=
  a.priority < b.priority ∨ (a.priority = b.priority ∧ a.order < b.order)

instance : DecidableRel itemLe := fun a b => by unfold itemLe; infer_instance

instance : DecidableRel itemLt := fun a b => by unfold itemLt; infer_instance

instance : IsTotal PlaybackItem itemLe :=
  ⟨fun a b => by unfold itemLe; omega⟩

instance : IsTrans PlaybackItem itemLe :=
  ⟨fun a b c hab hbc => by unfold itemLe at hab hbc ⊢; omega⟩

instance : IsAntisymm PlaybackItem itemLt :=
  ⟨fun a b hab hba => by exfalso; unfold itemLt at hab hba; omega⟩

/-- The worker queue ordering on speech tasks: lexicographic on
`(priority, order)`. -/
def taskLe (a b : SpeechTask) : Prop :=
  a.priority < b.priority ∨ (a.priority = b.priority ∧ a.order ≤ b.order)

instance : DecidableRel taskLe := fun a b => by unfold taskLe; infer_instance

/-- `heapq.heappush` on `_playback_heap`, on the sorted-contents
representation. -/
def heappush (heap : List PlaybackItem) (item : PlaybackItem) : List PlaybackItem :=
  heap.orderedInsert itemLe item

/-- The collaborators of the audio pipeline that the embedding treats as
an oracle: the file system, the cache-path digest and the availability of
the `edge_tts` backend. -/
structure AudioEnv where
  fileExists : PyStr → Bool
  cachePath : PyStr → PyStr → PyStr → PyStr
  canSynthesize : Bool

/-- The mutable state of `AudioManager` together with its
`_SynthesisWorker` (fields `_token`, `_task_seq`, `_playback_heap`, the
player's playback state as the currently playing path, voice settings, and
the worker's `_active_token` and queue). -/
structure AMState where
  token : Nat
  task_seq : Nat
  playback_heap : List PlaybackItem
  playing : Option PyStr
  voice : PyStr
  voice_rate : PyStr
  cache_enabled : Bool
  worker_token : Nat
  worker_queue : List SpeechTask
deriving DecidableEq

/-- `AudioManager._start_playback`: stop, set source, play. -/
def start_playback (s : AMState) (path : PyStr) : AMState :=
  { s with playing := some path }

/-- `_SynthesisWorker.invalidate`. -/
def worker_invalidate (s : AMState) (token : Nat) : AMState :=
  { s with worker_token := max s.worker_token token, worker_queue := [] }

/-- `_SynthesisWorker.enqueue_task` (delivered to the worker thread; the
worker queue is disjoint state, so the queued delivery is modelled as an
immediate state update). -/
def worker_enqueue_task (s : AMState) (task : SpeechTask) : AMState :=
  let s1 :=
    if task.token > s.worker_token then
      { s with worker_token := task.token, worker_queue := [] }
    else s
  if task.token < s1.worker_token then s1
  else { s1 with worker_queue := s1.worker_queue.orderedInsert taskLe task }

/-- Embedding of `AudioManager.interrupt`. -/
def interrupt (s : AMState) (clear_pending_playback clear_pending_tts : Bool) : AMState :=
  let s1 := { s with playing := none }
  let s2 := if clear_pending_playback then { s1 with playback_heap := [] } else s1
  if clear_pending_tts then
    let s3 := { s2 with token := s2.token + 1 }
    worker_invalidate s3 s3.token
  else s2

/-- Embedding of `AudioManager._on_audio_ready` (the `CRITICAL_PRIORITY`
constant is 0). -/
def on_audio_ready (env : AudioEnv) (s : AMState) (file_path : PyStr) (priority : Int)
    (intr : Bool) (token order : Nat) : AMState :=
  if token ≠ s.token then s
  else if ¬ env.fileExists file_path then s
  else if intr ∨ priority = 0 then
    start_playback { s with playing := none, playback_heap := [] } file_path
  else if s.playing.isSome then
    { s with playback_heap := heappush s.playback_heap ⟨priority, order, file_path, token⟩ }
  else start_playback s file_path

/-- The pop-and-skip-stale loop of `AudioManager._play_next`: repeatedly
`heappop` until an entry whose token matches the live token is found
(returned, with the remaining heap) or the heap is exhausted. -/
def play_next_aux (token : Nat) : List PlaybackItem → Option PyStr × List PlaybackItem
  | [] => (none, [])
  | i :: rest => if i.token = token then (some i.path, rest) else play_next_aux token rest

/-- Embedding of `AudioManager._play_next`. -/
def play_next (s : AMState) : AMState :=
  match play_next_aux s.token s.playback_heap with
  | (some p, rest) => start_playback { s with playback_heap := rest } p
  | (none, rest) => { s with playback_heap := rest }

/-- `AudioManager._on_media_status_changed` on `EndOfMedia` /
`InvalidMedia`: the player has stopped, then `_play_next` runs. -/
def on_media_finished (s : AMState) : AMState :=
  play_next { s with playing := none }

/-- Embedding of `AudioManager._normalize_priority` (the caller always
passes an int; `CRITICAL = 0`, `LOW = 3`). -/
def normalize_priority (priority : Int) : Int :=
  if priority ≤ 0 then 0 else if priority ≥ 3 then 3 else priority

/-- Embedding of `AudioManager._enqueue_request`. The direct
`_audio_ready.emit` is a same-thread Qt connection, i.e. a synchronous
call of `_on_audio_ready`. -/
def enqueue_request (env : AudioEnv) (s : AMState) (text : PyStr) (audio_path : Option PyStr)
    (priority : Int) (intr : Bool) (voice_rate_override : Option PyStr) : AMState :=
  let clean_text := pyStrip text
  if clean_text = [] then s
  else
    let s1 := if intr then interrupt s true true else s
    let s2 := { s1 with task_seq := s1.task_seq + 1 }
    let order := s2.task_seq
    let token := s2.token
    let fallback : AMState :=
      let rate := pyStrip (voice_rate_override.getD [])
      let effective_voice_rate := if rate = [] then s2.voice_rate else rate
      let target := env.cachePath clean_text s2.voice effective_voice_rate
      if s2.cache_enabled ∧ env.fileExists target then
        on_audio_ready env s2 target priority intr token order
      else if ¬ env.canSynthesize then s2
      else worker_enqueue_task s2 ⟨clean_text, priority, intr, token, order⟩
    match audio_path with
    | some ap =>
      if ap ≠ [] ∧ env.fileExists ap then on_audio_ready env s2 ap priority intr token order
      else fallback
    | none => fallback

/-- Embedding of `AudioManager.speak`. -/
def speak (env : AudioEnv) (s : AMState) (text : PyStr) (priority : Int)
    (cached_path : Option PyStr) (intr : Bool) (voice_rate_override : Option PyStr) : AMState :=
  if pyStrip text = [] then s
  else
    let normalized_priority := normalize_priority priority
    let should_interrupt := intr || (normalized_priority == 0)
    if normalized_priority = 3 ∧ (s.playing.isSome ∨ s.playback_heap ≠ []) then s
    else enqueue_request env s text cached_path normalized_priority should_interrupt
      voice_rate_override

/-- The externally triggered operations of `AudioManager`. -/
inductive AMEvent where
  | speakEv (text : PyStr) (priority : Int) (cached_path : Option PyStr) (intr : Bool)
      (rate_override : Option PyStr)
  | interruptEv (clear_pending_playback clear_pending_tts : Bool)
  | audioReadyEv (path : PyStr) (priority : Int) (intr : Bool) (token order : Nat)
  | mediaFinishedEv

/-- One step of the audio manager: a `speak` call, an `interrupt` call, a
worker result delivery, or a playback-finished notification. -/
def step (env : AudioEnv) (s : AMState) : AMEvent → AMState
  | .speakEv t p c i r => speak env s t p c i r
  | .interruptEv cp ct => interrupt s cp ct
  | .audioReadyEv p pr i tok od => on_audio_ready env s p pr i tok od
  | .mediaFinishedEv => on_media_finished s

/-- The sequence of paths played when playback-finished events are
delivered until the heap is exhausted: each `_play_next` plays the least
live entry and discards stale ones. (`drain_eq_play_next_iteration` below
certifies that this equals iterating `on_media_finished` and recording
each path that starts playing.) -/
def drainHeap (token : Nat) : List PlaybackItem → List PyStr
  | [] => []
  | i :: rest =>
    if i.token = token then i.path :: drainHeap token rest else drainHeap token rest

def drain (s : AMState) : List PyStr := drainHeap s.token s.playback_heap

/-- Delivery of a batch of non-interrupt synthesis results, in order. -/
def deliverAll (env : AudioEnv) (s : AMState) (items : List PlaybackItem) : AMState :=
  items.foldl (fun st i => on_audio_ready env st i.path i.priority false i.token i.order) s

/-- Spec-side definition for the playback-order claim: a stable sort of
the requests by (priority ascending, sequence ascending); Mathlib's
`insertionSort` is stable. -/
def stableSortByPrioritySeq (items : List PlaybackItem) : List PlaybackItem :=
  items.insertionSort itemLe

/-! ## Concrete fixtures used by witnesses and counterexamples -/

/-- An audio environment in which every file exists and synthesis is
available. -/
def exEnv : AudioEnv :=
  { fileExists := fun _ => true
    cachePath := fun _ _ _ => "cache".toList
    canSynthesize := true }

/-- An audio manager state that is currently playing a path, with an empty
pending heap and one synthesis task in flight on the worker. -/
def exPlayingState : AMState :=
  { token := 5
    task_seq := 1
    playback_heap := []
    playing := some "q".toList
    voice := "v".toList
    voice_rate := "+0%".toList
    cache_enabled := true
    worker_token := 5
    worker_queue := [⟨"prior".toList, 2, false, 5, 1⟩] }

/-- Three non-critical playback results tagged with live token 5, arriving
in sequence order 10, 11, 12 with priorities 2, 1, 2. -/
def exItems : List PlaybackItem :=
  [⟨2, 10, "n1".toList, 5⟩, ⟨1, 11, "h1".toList, 5⟩, ⟨2, 12, "n2".toList, 5⟩]

/-- An audio manager state that is idle: nothing playing, empty heap and
worker queue. -/
def exIdleState : AMState :=
  { token := 0
    task_seq := 0
    playback_heap := []
    playing := none
    voice := "v".toList
    voice_rate := "+0%".toList
    cache_enabled := true
    worker_token := 0
    worker_queue := [] }

/-- A "default"-range script with no cooldown. -/
def exScriptFresh : Script := { id := "a".toList, text := "a".toList }

/-- A "default"-range script with a 30-minute cooldown. -/
def exScriptCooling : Script := { id := "b".toList, text := "b".toList, cooldown_minutes := 30 }

/-- Engine state in which script "b" was last played at minute 1000 and
"a" was the previous selection. -/
def exSERepeatState : ScriptEngineState :=
  { lastPlayed := fun i => if i = "b".toList then some ⟨1000⟩ else none
    lastScriptId := some "a".toList }

/-- A single cooling-down script and matching engine state: "a" has a
30-minute cooldown and was last played at minute 1000. -/
def exScriptACooling : Script := { id := "a".toList, text := "a".toList, cooldown_minutes := 30 }

def exSECoolingState : ScriptEngineState :=
  { lastPlayed := fun _ => some ⟨1000⟩
    lastScriptId := some "a".toList }

/-- A gaze snapshot with no face detected. -/
def exGazeAbsent : GazeData := { face_detected := false }

/-- A gaze snapshot with a face detected. -/
def exGazePresent : GazeData := { face_detected := true }

/-! # Theorems -/

section Theorems

open List

/-! ## State machine: claims C10 and C3 -/

/-- Claim C10: for every state `s`, calling `transition_to(s)` while the
current state is already `s` returns true and is a pure no-op — no state
change, no exit or enter callback, no state-changed notification — even
though `(s, s)` is never in the adjacency table. -/
theorem self_transition_noop (cfg : SMConfig) (s : EntityState) :
    transition_to cfg s s = (true, s, []) ∧ s ∉ VALID_TRANSITIONS s := by
  refine ⟨by simp [transition_to], ?_⟩
  cases s <;> simp [VALID_TRANSITIONS]

/-- Claim C3, counterexample: the pair `(HIDDEN, HIDDEN)` is not in the
adjacency table, yet `transition_to(HIDDEN)` from `HIDDEN` returns true
(the claim states it returns false for every pair absent from the table,
including the pairs with `s1 = s2`). -/
theorem transition_refl_returns_true_cex :
    EntityState.HIDDEN ∉ VALID_TRANSITIONS EntityState.HIDDEN ∧
    transition_to ⟨fun _ => none, fun _ => none⟩ EntityState.HIDDEN EntityState.HIDDEN
      = (true, EntityState.HIDDEN, []) := by
  refine ⟨by simp [VALID_TRANSITIONS], by simp [transition_to]⟩

/-- Claim C3, amended: for every pair `(s1, s2)` such that `s2` is not in
the adjacency table entry for `s1`, `transition_to(s2)` from `s1` changes
nothing (no state change, no callbacks, no notification); it returns false
when `s1 ≠ s2`, but returns true for the self pairs `s1 = s2` (which are
never in the table). -/
theorem illegal_transition_rejected (cfg : SMConfig) (s1 s2 : EntityState)
    (h : s2 ∉ VALID_TRANSITIONS s1) :
    transition_to cfg s1 s2 = (decide (s2 = s1), s1, []) := by
  by_cases he : s2 = s1
  · subst he
    simp [transition_to]
  · simp [transition_to, he, h]

theorem illegal_transition_rejected_witness :
    EntityState.PEEKING ∉ VALID_TRANSITIONS EntityState.ENGAGED ∧
    transition_to ⟨fun _ => some 7, fun _ => some 8⟩ EntityState.ENGAGED EntityState.PEEKING
      = (decide (EntityState.PEEKING = EntityState.ENGAGED), EntityState.ENGAGED, []) :=
  ⟨by decide, illegal_transition_rejected _ _ _ (by decide)⟩

/-! ## Audio manager: claims C8 and C7 -/

/-- Claim C8: `interrupt()` is idempotent with respect to the observable
playback state: for any fixed flags, a second consecutive `interrupt`
leaves the pending-playback heap and the playback state exactly as the
first left them; after one call playback is stopped, and with
`clear_pending_playback` (its default) the heap is empty. -/
theorem interrupt_twice_idempotent (s : AMState) (cp ct : Bool) :
    (interrupt (interrupt s cp ct) cp ct).playback_heap
        = (interrupt s cp ct).playback_heap ∧
    (interrupt (interrupt s cp ct) cp ct).playing = (interrupt s cp ct).playing ∧
    (interrupt s cp ct).playing = none ∧
    (interrupt s true ct).playback_heap = [] := by
  cases cp <;> cases ct <;> simp [interrupt, worker_invalidate]

/-- Claim C7: a `speak()` whose normalized priority is LOW (3), issued
while the player is playing or the pending heap is non-empty, returns
without changing anything: no synthesis task created, nothing enqueued,
no state (heap, token, playback, worker) modified. -/
theorem low_priority_dropped_when_busy (env : AudioEnv) (s : AMState) (text : PyStr)
    (priority : Int) (cached_path : Option PyStr) (intr : Bool) (ro : Option PyStr)
    (hlow : normalize_priority priority = 3)
    (hbusy : s.playing.isSome ∨ s.playback_heap ≠ []) :
    speak env s text priority cached_path intr ro = s := by
  unfold speak
  by_cases ht : pyStrip text = []
  · simp [ht]
  · simp only [ht, if_false, hlow]
    rw [if_pos ⟨trivial, hbusy⟩]

theorem low_priority_dropped_when_busy_witness :
    normalize_priority 3 = 3 ∧
    (exPlayingState.playing.isSome ∨ exPlayingState.playback_heap ≠ []) ∧
    speak exEnv exPlayingState "hello".toList 3 none false none = exPlayingState :=
  ⟨by decide, by decide,
    low_priority_dropped_when_busy exEnv exPlayingState "hello".toList 3 none false none
      (by decide) (by decide)⟩

/-! ## Time ranges: claim C5 -/

/-- Claim C5: `matches_time_range` accepts every `now` for `"default"`;
for a parsed range with `start <= end` it accepts exactly the half-open
interval `[start, end)` in minutes-of-day; for `start > end` it wraps
midnight, accepting iff `current >= start` or `current < end`. Concretely,
`"22:00-06:00"` matches 23:30 and 02:00 but not 12:00, and
`"12:00-13:00"` matches 12:00 but not 13:00. -/
theorem matches_time_range_spec :
    (∀ now : DateTime, matches_time_range "default".toList now = true) ∧
    (∀ (r : PyStr) (now : DateTime) (a b : PyStr) (sm em : Int),
      r ≠ [] →
      pyLower (pyStrip r) ≠ "default".toList →
      splitFirstOn '-' (pyLower (pyStrip r)) = some (a, b) →
      toMinutes a = some sm →
      toMinutes b = some em →
      (sm ≤ em →
        (matches_time_range r now = true ↔
          sm ≤ (now.minutesOfDay : Int) ∧ (now.minutesOfDay : Int) < em)) ∧
      (em < sm →
        (matches_time_range r now = true ↔
          (now.minutesOfDay : Int) ≥ sm ∨ (now.minutesOfDay : Int) < em))) ∧
    (matches_time_range "22:00-06:00".toList (timeOfDay 23 30) = true ∧
      matches_time_range "22:00-06:00".toList (timeOfDay 2 0) = true ∧
      matches_time_range "22:00-06:00".toList (timeOfDay 12 0) = false ∧
      matches_time_range "12:00-13:00".toList (timeOfDay 12 0) = true ∧
      matches_time_range "12:00-13:00".toList (timeOfDay 13 0) = false) := by
  refine ⟨?_, ?_, by decide⟩
  · intro now
    rfl
  intro r now a b sm em hne hdef hsplit ha hb
  have hcast : ((now.minutesOfDay : ℤ)) = (now.hour : ℤ) * 60 + (now.minute : ℤ) := by
    unfold DateTime.minutesOfDay
    push_cast
    ring
  have key : matches_time_range r now =
      (if sm ≤ em then
        decide (sm ≤ ((now.hour : ℤ) * 60 + (now.minute : ℤ)) ∧
          ((now.hour : ℤ) * 60 + (now.minute : ℤ)) < em)
      else
        decide (((now.hour : ℤ) * 60 + (now.minute : ℤ)) ≥ sm ∨
          ((now.hour : ℤ) * 60 + (now.minute : ℤ)) < em)) := by
    unfold matches_time_range
    rw [if_neg hne, if_neg hdef, hsplit]
    dsimp only
    rw [ha, hb]
  constructor
  · intro h1
    rw [key, if_pos h1, decide_eq_true_eq, hcast]
  · intro h2
    rw [key, if_neg (not_le.mpr h2), decide_eq_true_eq, hcast]

theorem matches_time_range_spec_witness :
    ("22:00-06:00".toList ≠ ([] : PyStr)) ∧
    pyLower (pyStrip "22:00-06:00".toList) ≠ "default".toList ∧
    splitFirstOn '-' (pyLower (pyStrip "22:00-06:00".toList))
      = some ("22:00".toList, "06:00".toList) ∧
    toMinutes "22:00".toList = some 1320 ∧
    toMinutes "06:00".toList = some 360 ∧
    (((1320 : Int) ≤ 360 →
      (matches_time_range "22:00-06:00".toList (timeOfDay 23 30) = true ↔
        1320 ≤ ((timeOfDay 23 30).minutesOfDay : Int) ∧
          ((timeOfDay 23 30).minutesOfDay : Int) < 360)) ∧
     ((360 : Int) < 1320 →
      (matches_time_range "22:00-06:00".toList (timeOfDay 23 30) = true ↔
        ((timeOfDay 23 30).minutesOfDay : Int) ≥ 1320 ∨
          ((timeOfDay 23 30).minutesOfDay : Int) < 360))) :=
  ⟨by decide, by decide, by decide, by decide, by decide,
    matches_time_range_spec.2.1 "22:00-06:00".toList (timeOfDay 23 30)
      "22:00".toList "06:00".toList 1320 360
      (by decide) (by decide) (by decide) (by decide) (by decide)⟩

/-! ## Presence detection: claim C6 -/

/-- Claim C6: `determine_presence(idleMs, gaze)` returns PRESENT_ACTIVE
whenever `idleMs < 60000`, regardless of the gaze argument; returns
UNKNOWN whenever `idleMs >= 60000` and gaze is None; and when
`idleMs >= 300000` with gaze present, returns ABSENT if the consecutive
face-absent count updated with this observation is `>= 30`, else
PRESENT_PASSIVE if the face is currently detected, else UNKNOWN. -/
theorem determine_presence_spec (count : Nat) (idleMs : Int) (gaze : Option GazeData) :
    (idleMs < 60000 →
      determine_presence count idleMs gaze = (PresenceState.PRESENT_ACTIVE, count)) ∧
    (60000 ≤ idleMs → gaze = none →
      determine_presence count idleMs gaze = (PresenceState.UNKNOWN, count)) ∧
    (∀ g : GazeData, 300000 ≤ idleMs → gaze = some g →
      determine_presence count idleMs gaze =
        ((if (if g.face_detected then 0 else count + 1) ≥ 30 then PresenceState.ABSENT
          else if g.face_detected then PresenceState.PRESENT_PASSIVE
          else PresenceState.UNKNOWN),
         if g.face_detected then 0 else count + 1)) := by
  refine ⟨?_, ?_, ?_⟩
  · intro h
    unfold determine_presence
    rw [if_pos h]
  · intro h hn
    unfold determine_presence
    rw [if_neg (not_lt.mpr h), hn]
  · intro g h hs
    have h1 : ¬ idleMs < 60000 := by omega
    have h2 : idleMs ≥ IDLE_THRESHOLD_MS := by unfold IDLE_THRESHOLD_MS; omega
    unfold determine_presence
    rw [if_neg h1, hs]
    cases hf : g.face_detected <;>
      (simp [hf, h2, FACE_ABSENT_FRAMES]; try (split <;> rfl))

theorem determine_presence_spec_witness :
    ((30000 : Int) < 60000) ∧
    determine_presence 0 30000 (some exGazeAbsent) = (PresenceState.PRESENT_ACTIVE, 0) ∧
    ((300000 : Int) ≤ 400000) ∧
    determine_presence 29 400000 (some exGazeAbsent)
      = ((if (if exGazeAbsent.face_detected then 0 else 29 + 1) ≥ 30 then PresenceState.ABSENT
          else if exGazeAbsent.face_detected then PresenceState.PRESENT_PASSIVE
          else PresenceState.UNKNOWN),
         if exGazeAbsent.face_detected then 0 else 29 + 1) :=
  ⟨by decide,
    (determine_presence_spec 0 30000 (some exGazeAbsent)).1 (by decide),
    by decide,
    (determine_presence_spec 29 400000 (some exGazeAbsent)).2.2 exGazeAbsent (by decide) rfl⟩

/-! ## Mood system: claim C9 -/

theorem mood_step_bounds (m : ℚ) (h0 : 0 ≤ m) (h1 : m ≤ 1) (e : MoodEvent) :
    0 ≤ moodStep m e ∧ moodStep m e ≤ 1 := by
  cases e with
  | dismissed =>
    show 0 ≤ max 0 (m - 5/100) ∧ max 0 (m - 5/100) ≤ 1
    exact ⟨le_max_left _ _, max_le (by norm_num) (by linarith)⟩
  | interacted =>
    show 0 ≤ min 1 (m + 1/10) ∧ min 1 (m + 1/10) ≤ 1
    exact ⟨le_min (by norm_num) (by linarith), min_le_left _ _⟩
  | engaged =>
    show 0 ≤ min 1 (m + 15/100) ∧ min 1 (m + 15/100) ≤ 1
    exact ⟨le_min (by norm_num) (by linarith), min_le_left _ _⟩
  | decay =>
    show 0 ≤ natural_decay m ∧ natural_decay m ≤ 1
    unfold natural_decay
    split_ifs with hgt hlt
    · exact ⟨le_max_of_le_left (by norm_num), max_le (by norm_num) (by linarith)⟩
    · exact ⟨le_min (by norm_num) (by linarith), le_trans (min_le_left _ _) (by norm_num)⟩
    · exact ⟨h0, h1⟩

theorem mood_fold_bounds (evs : List MoodEvent) :
    ∀ m : ℚ, 0 ≤ m → m ≤ 1 → 0 ≤ evs.foldl moodStep m ∧ evs.foldl moodStep m ≤ 1 := by
  induction evs with
  | nil => exact fun m h0 h1 => ⟨h0, h1⟩
  | cons e es ih =>
    intro m h0 h1
    have hb := mood_step_bounds m h0 h1 e
    exact ih _ hb.1 hb.2

theorem natural_decay_shape (m : ℚ) :
    |natural_decay m - 1/2| = max 0 (|m - 1/2| - 2/100) ∧
    (1/2 ≤ m → 1/2 ≤ natural_decay m ∧ natural_decay m ≤ m) ∧
    (m ≤ 1/2 → natural_decay m ≤ 1/2 ∧ m ≤ natural_decay m) := by
  unfold natural_decay
  split_ifs with hgt hlt
  · refine ⟨?_, fun _ => ⟨le_max_left _ _, max_le (by linarith) (by linarith)⟩,
      fun h => absurd h (by linarith)⟩
    rcases le_total (1/2 : ℚ) (m - 2/100) with hc | hc
    · rw [max_eq_right hc, abs_of_nonneg (by linarith), abs_of_nonneg (by linarith),
        max_eq_right (by linarith)]
      ring
    · have habs : |m - (1 : ℚ)/2| = m - 1/2 := abs_of_nonneg (by linarith)
      rw [max_eq_left hc, habs, max_eq_left (by linarith)]
      simp
  · refine ⟨?_, fun h => absurd h (by linarith),
      fun _ => ⟨min_le_left _ _, le_min (by linarith) (by linarith)⟩⟩
    rcases le_total (m + 2/100) (1/2 : ℚ) with hc | hc
    · rw [min_eq_right hc, abs_of_nonpos (by linarith), abs_of_nonpos (by linarith),
        max_eq_right (by linarith)]
      ring
    · have habs : |m - (1 : ℚ)/2| = -(m - 1/2) := abs_of_nonpos (by linarith)
      rw [min_eq_left hc, habs, max_eq_left (by linarith)]
      simp
  · have hm : m = 1/2 := le_antisymm (not_lt.mp hgt) (not_lt.mp hlt)
    subst hm
    norm_num

/-- Claim C9: the mood is a scalar that stays within `[0, 1]` after every
operation from any reachable state; `on_interacted` adds 0.10 clamped to
1, `on_engaged` adds 0.15 clamped to 1, `on_dismissed` subtracts 0.05
clamped to 0, and each `natural_decay` step moves the value by 0.02 toward
0.5 without overshooting it (the distance to 0.5 shrinks by exactly 0.02,
floored at 0, and 0.5 is never crossed). -/
theorem mood_bounded_spec :
    (∀ (init : ℚ) (evs : List MoodEvent),
      0 ≤ moodRun init evs ∧ moodRun init evs ≤ 1) ∧
    (∀ m : ℚ, 0 ≤ m → m ≤ 1 →
      (0 ≤ on_interacted m ∧ on_interacted m ≤ 1 ∧
        (m + 1/10 ≤ 1 → on_interacted m = m + 1/10)) ∧
      (0 ≤ on_engaged m ∧ on_engaged m ≤ 1 ∧
        (m + 15/100 ≤ 1 → on_engaged m = m + 15/100)) ∧
      (0 ≤ on_dismissed m ∧ on_dismissed m ≤ 1 ∧
        (0 ≤ m - 5/100 → on_dismissed m = m - 5/100)) ∧
      (0 ≤ natural_decay m ∧ natural_decay m ≤ 1 ∧
        |natural_decay m - 1/2| = max 0 (|m - 1/2| - 2/100) ∧
        (1/2 ≤ m → 1/2 ≤ natural_decay m ∧ natural_decay m ≤ m) ∧
        (m ≤ 1/2 → natural_decay m ≤ 1/2 ∧ m ≤ natural_decay m))) := by
  constructor
  · intro init evs
    have hinit : 0 ≤ moodInit init ∧ moodInit init ≤ 1 := by
      unfold moodInit
      exact ⟨le_max_left _ _, max_le (by norm_num) (min_le_left _ _)⟩
    exact mood_fold_bounds evs _ hinit.1 hinit.2
  · intro m h0 h1
    have hi := mood_step_bounds m h0 h1 .interacted
    have he := mood_step_bounds m h0 h1 .engaged
    have hd := mood_step_bounds m h0 h1 .dismissed
    have hy := mood_step_bounds m h0 h1 .decay
    have hshape := natural_decay_shape m
    refine ⟨⟨hi.1, hi.2, fun hc => min_eq_right hc⟩,
      ⟨he.1, he.2, fun hc => min_eq_right hc⟩,
      ⟨hd.1, hd.2, fun hc => max_eq_right hc⟩,
      ⟨hy.1, hy.2, hshape.1, hshape.2.1, hshape.2.2⟩⟩

theorem mood_bounded_spec_witness :
    (0 : ℚ) ≤ 1 ∧ (1 : ℚ) ≤ 1 ∧
    (0 ≤ on_interacted 1 ∧ on_interacted 1 ≤ 1) ∧
    |natural_decay 1 - 1/2| = max 0 (|(1 : ℚ) - 1/2| - 2/100) :=
  ⟨zero_le_one, le_refl 1,
    ⟨(mood_bounded_spec.2 1 zero_le_one (le_refl 1)).1.1,
     (mood_bounded_spec.2 1 zero_le_one (le_refl 1)).1.2.1⟩,
    (mood_bounded_spec.2 1 zero_le_one (le_refl 1)).2.2.2.2.2.1⟩

/-! ## Audio manager token discipline: claim C2 -/

theorem on_audio_ready_token (env : AudioEnv) (s : AMState) (p : PyStr) (pr : Int)
    (i : Bool) (tok od : Nat) : (on_audio_ready env s p pr i tok od).token = s.token := by
  unfold on_audio_ready start_playback
  split_ifs <;> rfl

theorem on_audio_ready_stale (env : AudioEnv) (s : AMState) (p : PyStr) (pr : Int)
    (i : Bool) (tok od : Nat) (h : tok ≠ s.token) : on_audio_ready env s p pr i tok od = s := by
  unfold on_audio_ready
  rw [if_pos h]

theorem interrupt_token_le (s : AMState) (cp ct : Bool) :
    s.token ≤ (interrupt s cp ct).token := by
  cases cp <;> cases ct <;> simp [interrupt, worker_invalidate]

theorem interrupt_token_bump (s : AMState) (cp : Bool) :
    (interrupt s cp true).token = s.token + 1 := by
  cases cp <;> simp [interrupt, worker_invalidate]

theorem worker_enqueue_token (s : AMState) (task : SpeechTask) :
    (worker_enqueue_task s task).token = s.token := by
  unfold worker_enqueue_task
  dsimp only
  split_ifs <;> rfl

theorem enqueue_request_token_le (env : AudioEnv) (s : AMState) (text : PyStr)
    (ap : Option PyStr) (pr : Int) (i : Bool) (ro : Option PyStr) :
    s.token ≤ (enqueue_request env s text ap pr i ro).token := by
  unfold enqueue_request
  by_cases hct : pyStrip text = []
  · simp [hct]
  · rw [if_neg hct]
    cases ap <;> dsimp only <;> split_ifs <;>
      simp [on_audio_ready_token, worker_enqueue_token, interrupt_token_bump]

theorem enqueue_request_interrupt_bumps (env : AudioEnv) (s : AMState) (text : PyStr)
    (ap : Option PyStr) (pr : Int) (ro : Option PyStr) (h : pyStrip text ≠ []) :
    (enqueue_request env s text ap pr true ro).token = s.token + 1 := by
  unfold enqueue_request
  rw [if_neg h]
  cases ap <;> dsimp only <;> split_ifs <;>
    simp_all [on_audio_ready_token, worker_enqueue_token, interrupt_token_bump]

theorem speak_token_le (env : AudioEnv) (s : AMState) (text : PyStr) (pr : Int)
    (cp : Option PyStr) (i : Bool) (ro : Option PyStr) :
    s.token ≤ (speak env s text pr cp i ro).token := by
  unfold speak
  dsimp only
  split_ifs <;>
    first
      | exact le_refl _
      | exact enqueue_request_token_le _ _ _ _ _ _ _

theorem play_next_token (s : AMState) : (play_next s).token = s.token := by
  unfold play_next
  rcases play_next_aux s.token s.playback_heap with ⟨_ | p, rest⟩ <;> rfl

theorem on_media_finished_token (s : AMState) :
    (on_media_finished s).token = s.token := by
  unfold on_media_finished
  rw [play_next_token]

theorem step_token_le (env : AudioEnv) (s : AMState) (e : AMEvent) :
    s.token ≤ (step env s e).token := by
  cases e with
  | speakEv t p c i r => exact speak_token_le env s t p c i r
  | interruptEv cp ct => exact interrupt_token_le s cp ct
  | audioReadyEv p pr i tok od => exact le_of_eq (on_audio_ready_token env s p pr i tok od).symm
  | mediaFinishedEv => exact le_of_eq (on_media_finished_token s).symm

theorem foldl_step_token_le (env : AudioEnv) (evs : List AMEvent) :
    ∀ s : AMState, s.token ≤ (evs.foldl (step env) s).token := by
  induction evs with
  | nil => exact fun s => le_refl _
  | cons e es ih =>
    intro s
    exact le_trans (step_token_le env s e) (ih (step env s e))

/-- Claim C2, counterexample: a `speak(interrupt=True)` whose normalized
priority is LOW (3), issued while something is playing, is dropped by the
LOW-priority guard before the interrupt is processed: the token is not
bumped (the call is a complete no-op), so the prior in-flight result
(tagged with the still-live token 5) is subsequently accepted and enqueued
rather than discarded. -/
theorem interrupt_speak_dropped_cex :
    speak exEnv exPlayingState "hello".toList 3 none true none = exPlayingState ∧
    (on_audio_ready exEnv (speak exEnv exPlayingState "hello".toList 3 none true none)
        "prior".toList 2 false 5 2).playback_heap
      = [⟨2, 2, "prior".toList, 5⟩] := by
  constructor <;> decide

/-- Claim C2, amended: the cancellation token only ever increases across
every operation, and a result delivered with a token different from the
live token is discarded (the state, hence playback and the heap, is
unchanged). In particular a `speak(interrupt=True)` with non-empty text
that is not itself dropped by the LOW-priority guard (normalized priority
is not LOW, or nothing is playing and nothing is pending) strictly bumps
the token, and any result tagged with a token below the live one is
discarded whenever it arrives, after any further sequence of
operations. -/
theorem token_monotone_stale_discarded :
    (∀ (env : AudioEnv) (s : AMState) (e : AMEvent), s.token ≤ (step env s e).token) ∧
    (∀ (env : AudioEnv) (s : AMState) (p : PyStr) (pr : Int) (i : Bool) (tok od : Nat),
      tok ≠ s.token → on_audio_ready env s p pr i tok od = s) ∧
    (∀ (env : AudioEnv) (s : AMState) (text : PyStr) (pr : Int) (cp ro : Option PyStr),
      pyStrip text ≠ [] →
      (normalize_priority pr ≠ 3 ∨ (s.playing = none ∧ s.playback_heap = [])) →
      s.token < (speak env s text pr cp true ro).token) ∧
    (∀ (env : AudioEnv) (s : AMState) (evs : List AMEvent) (p : PyStr) (pr : Int) (i : Bool)
      (tok od : Nat),
      tok < s.token →
      on_audio_ready env (evs.foldl (step env) s) p pr i tok od = evs.foldl (step env) s) := by
  refine ⟨step_token_le, on_audio_ready_stale, ?_, ?_⟩
  · intro env s text pr cp ro htext hnotdrop
    unfold speak
    rw [if_neg htext]
    have hcond : ¬ (normalize_priority pr = 3 ∧ (s.playing.isSome ∨ s.playback_heap ≠ [])) := by
      rcases hnotdrop with h | ⟨h1, h2⟩
      · exact fun hc => h hc.1
      · rintro ⟨-, hbusy⟩
        rcases hbusy with hb | hb
        · rw [h1] at hb
          simp at hb
        · exact hb h2
    rw [if_neg hcond]
    have hrw : (enqueue_request env s text cp (normalize_priority pr)
        (true || (normalize_priority pr == 0)) ro).token = s.token + 1 := by
      rw [Bool.true_or]
      exact enqueue_request_interrupt_bumps env s text cp (normalize_priority pr) ro htext
    omega
  · intro env s evs p pr i tok od htok
    have hle := foldl_step_token_le env evs s
    exact on_audio_ready_stale env _ p pr i tok od (by omega)

theorem token_monotone_stale_discarded_witness :
    pyStrip "hello".toList ≠ [] ∧
    (normalize_priority 2 ≠ 3 ∨ (exIdleState.playing = none ∧ exIdleState.playback_heap = [])) ∧
    exIdleState.token < (speak exEnv exIdleState "hello".toList 2 none true none).token ∧
    (1 : Nat) ≠ exPlayingState.token ∧
    on_audio_ready exEnv exPlayingState "x".toList 2 false 1 9 = exPlayingState ∧
    (1 : Nat) < exPlayingState.token ∧
    on_audio_ready exEnv ([].foldl (step exEnv) exPlayingState) "x".toList 2 false 1 9
      = [].foldl (step exEnv) exPlayingState :=
  ⟨by decide, by decide,
    token_monotone_stale_discarded.2.2.1 exEnv exIdleState "hello".toList 2 none none
      (by decide) (by decide),
    by decide,
    token_monotone_stale_discarded.2.1 exEnv exPlayingState "x".toList 2 false 1 9 (by decide),
    by decide,
    token_monotone_stale_discarded.2.2.2 exEnv exPlayingState [] "x".toList 2 false 1 9
      (by decide)⟩

/-! ## Script selection fallback: claim C4 -/

theorem filter_candidates_all_cooling (st : ScriptEngineState) (l : List Script)
    (now : DateTime) (ar : Bool) (n : Nat)
    (h : ∀ s ∈ l, is_cooling_down st s now = true) :
    filter_candidates st l now ar true n = [] := by
  unfold filter_candidates
  rw [List.filter_eq_nil_iff]
  intro a ha
  by_cases htm : is_time_match a now <;> simp [htm, h a ha]

/-- Claim C4, counterexample: with a single "default"-range script that is
cooling down (cooldown 30 minutes, last played at minute 1000, selection
attempted at minute 1005) the first two passes are empty, and the final
retry still honors the cooldown, so no selection is returned — while the
claim asserts that the final retry ignores the cooldown constraint and a
selection is still returned. -/
theorem select_script_keeps_cooldown_cex :
    is_cooling_down exSECoolingState exScriptACooling ⟨1005⟩ = true ∧
    (select_script exSECoolingState [exScriptACooling] ⟨1005⟩ true true
        (fun l : List Script => l.headD exScriptACooling)).1 = none := by
  constructor <;> decide

/-- Claim C4, amended: when the first two filtering passes produce no
candidates, the final retry relaxes repeat-avoidance while still honoring
the cooldown flag, run against the default pool when both the exact and
default pools are non-empty and otherwise against the primary pool;
consequently, when every candidate is cooling down and cooldown is
honored, no selection is returned (the selector relaxes repeat-avoidance
before it ever relaxes cooldown). -/
theorem select_script_final_retry :
    (∀ (st : ScriptEngineState) (source : List Script) (now : DateTime)
      (ar hc : Bool) (pick : List Script → Script),
      source ≠ [] →
      filter_candidates st (primaryPool source now) now ar hc source.length = [] →
      filter_candidates st (defaultPool source) now ar hc source.length = [] →
      select_script st source now ar hc pick =
        (let c := filter_candidates st
            (if exactPool source now ≠ [] ∧ defaultPool source ≠ [] then defaultPool source
             else primaryPool source now)
            now false hc source.length
         if c = [] then (none, st)
         else (some (pick c),
           { lastPlayed := fun i => if i = (pick c).id then some now else st.lastPlayed i,
             lastScriptId := some (pick c).id }))) ∧
    (∀ (st : ScriptEngineState) (source : List Script) (now : DateTime)
      (ar : Bool) (pick : List Script → Script),
      (∀ s ∈ source, is_cooling_down st s now = true) →
      (select_script st source now ar true pick).1 = none) := by
  constructor
  · intro st source now ar hc pick hsrc h1 h2
    simp only [primaryPool, exactPool, defaultPool] at h1 h2 ⊢
    by_cases he : (source.filter fun s => is_time_match s now && ! is_default_range s) = [] <;>
    by_cases hd : (source.filter fun s => is_default_range s) = [] <;>
      simp only [he, hd, ne_eq, not_true_eq_false, not_false_eq_true, if_true, if_false,
        ite_true, ite_false, ite_self] at h1 h2 ⊢ <;>
      simp [select_script, hsrc, h1, h2, he, hd]
  · intro st source now ar pick hcool
    unfold select_script
    by_cases hsrc : source = []
    · rw [if_pos hsrc]
    · rw [if_neg hsrc]
      dsimp only
      have hsub : ∀ l : List Script, (∀ s ∈ l, s ∈ source) →
          ∀ b : Bool, filter_candidates st l now b true source.length = [] := by
        intro l hl b
        exact filter_candidates_all_cooling st l now b source.length
          (fun s hs => hcool s (hl s hs))
      have hexact : ∀ s ∈ (source.filter fun s => is_time_match s now && ! is_default_range s),
          s ∈ source := fun s hs => (List.mem_filter.mp hs).1
      have hdef : ∀ s ∈ (source.filter fun s => is_default_range s), s ∈ source :=
        fun s hs => (List.mem_filter.mp hs).1
      have hprim : ∀ s ∈ (if (source.filter fun s => is_time_match s now && ! is_default_range s) ≠ []
            then source.filter fun s => is_time_match s now && ! is_default_range s
            else if (source.filter fun s => is_default_range s) ≠ []
              then source.filter fun s => is_default_range s
              else source), s ∈ source := by
        split_ifs with hA hB
        · exact hexact
        · exact hdef
        · exact fun s hs => hs
      have hpool3 : ∀ s ∈ (if ((source.filter fun s => is_time_match s now && ! is_default_range s) ≠ []
            ∧ (source.filter fun s => is_default_range s) ≠ [])
            then source.filter fun s => is_default_range s
            else (if (source.filter fun s => is_time_match s now && ! is_default_range s) ≠ []
              then source.filter fun s => is_time_match s now && ! is_default_range s
              else if (source.filter fun s => is_default_range s) ≠ []
                then source.filter fun s => is_default_range s
                else source)), s ∈ source := by
        split_ifs with hA hB hC
        · exact hdef
        · exact hexact
        · exact hdef
        · exact fun s hs => hs
      rw [hsub _ hprim ar, hsub _ hdef ar]
      simp only [ite_self]
      rw [hsub _ hpool3 false]
      simp

theorem select_script_final_retry_witness :
    ([exScriptFresh, exScriptCooling] ≠ ([] : List Script)) ∧
    filter_candidates exSERepeatState
      (primaryPool [exScriptFresh, exScriptCooling] ⟨1005⟩) ⟨1005⟩ true true 2 = [] ∧
    filter_candidates exSERepeatState
      (defaultPool [exScriptFresh, exScriptCooling]) ⟨1005⟩ true true 2 = [] ∧
    select_script exSERepeatState [exScriptFresh, exScriptCooling] ⟨1005⟩ true true
        (fun l : List Script => l.headD exScriptFresh) =
      (let c := filter_candidates exSERepeatState
          (if exactPool [exScriptFresh, exScriptCooling] ⟨1005⟩ ≠ [] ∧
              defaultPool [exScriptFresh, exScriptCooling] ≠ []
            then defaultPool [exScriptFresh, exScriptCooling]
            else primaryPool [exScriptFresh, exScriptCooling] ⟨1005⟩)
          ⟨1005⟩ false true 2
       if c = [] then (none, exSERepeatState)
       else (some ((fun l : List Script => l.headD exScriptFresh) c),
         { lastPlayed := fun i =>
             if i = ((fun l : List Script => l.headD exScriptFresh) c).id then some ⟨1005⟩
             else exSERepeatState.lastPlayed i,
           lastScriptId := some ((fun l : List Script => l.headD exScriptFresh) c).id })) :=
  ⟨by decide, by decide, by decide,
    select_script_final_retry.1 exSERepeatState [exScriptFresh, exScriptCooling] ⟨1005⟩
      true true (fun l : List Script => l.headD exScriptFresh) (by decide) (by decide) (by decide)⟩

/-! ## Playback ordering: claim C1 -/

theorem heappush_perm (heap : List PlaybackItem) (i : PlaybackItem) :
    heappush heap i ~ i :: heap :=
  List.perm_orderedInsert _ _ _

theorem foldl_heappush_perm (items : List PlaybackItem) :
    ∀ acc, items.foldl heappush acc ~ acc ++ items := by
  induction items with
  | nil => intro acc; simp
  | cons i is ih =>
    intro acc
    calc (i :: is).foldl heappush acc
        = is.foldl heappush (heappush acc i) := rfl
      _ ~ (heappush acc i) ++ is := ih _
      _ ~ (i :: acc) ++ is := (heappush_perm acc i).append_right is
      _ = i :: (acc ++ is) := rfl
      _ ~ acc ++ (i :: is) := List.perm_middle.symm

theorem foldl_heappush_sorted (items : List PlaybackItem) :
    ∀ acc, acc.Sorted itemLe → (items.foldl heappush acc).Sorted itemLe := by
  induction items with
  | nil => exact fun acc h => h
  | cons i is ih =>
    intro acc h
    exact ih _ (h.orderedInsert i acc)

theorem sorted_lt_of_sorted_le_distinct (l : List PlaybackItem)
    (hs : l.Sorted itemLe) (hd : l.Pairwise fun a b => a.order ≠ b.order) :
    l.Sorted itemLt := by
  have hand := List.Pairwise.and hs hd
  exact hand.imp (fun hab => by
    unfold itemLe at hab
    unfold itemLt
    omega)

theorem drainHeap_all_live (tok : Nat) (heap : List PlaybackItem)
    (h : ∀ i ∈ heap, i.token = tok) :
    drainHeap tok heap = heap.map (fun i => i.path) := by
  induction heap with
  | nil => rfl
  | cons i rest ih =>
    unfold drainHeap
    rw [if_pos (h i (List.mem_cons_self i rest))]
    rw [ih fun j hj => h j (List.mem_cons_of_mem i hj)]
    rfl

theorem deliverAll_push (env : AudioEnv) (items : List PlaybackItem) :
    ∀ s : AMState, s.playing.isSome →
      (∀ i ∈ items, i.token = s.token) →
      (∀ i ∈ items, i.priority ≠ 0) →
      (∀ i ∈ items, env.fileExists i.path = true) →
      deliverAll env s items
        = { s with playback_heap := items.foldl heappush s.playback_heap } := by
  induction items with
  | nil => intro s _ _ _ _; rfl
  | cons i is ih =>
    intro s hp ht hpr he
    have hstep : on_audio_ready env s i.path i.priority false i.token i.order
        = { s with playback_heap := heappush s.playback_heap i } := by
      unfold on_audio_ready
      rw [if_neg fun hn => hn (ht i (List.mem_cons_self i is))]
      rw [if_neg (by simp [he i (List.mem_cons_self i is)])]
      rw [if_neg (by simp [hpr i (List.mem_cons_self i is)])]
      rw [if_pos hp]
    have hrest := ih { s with playback_heap := heappush s.playback_heap i }
      hp
      (fun j hj => ht j (List.mem_cons_of_mem i hj))
      (fun j hj => hpr j (List.mem_cons_of_mem i hj))
      (fun j hj => he j (List.mem_cons_of_mem i hj))
    calc deliverAll env s (i :: is)
        = deliverAll env (on_audio_ready env s i.path i.priority false i.token i.order) is := rfl
      _ = deliverAll env { s with playback_heap := heappush s.playback_heap i } is := by
          rw [hstep]
      _ = { s with playback_heap := (i :: is).foldl heappush s.playback_heap } := hrest

/-- Claim C1: results delivered without the interrupt flag and without
CRITICAL priority while something is playing are pushed behind it on the
`(priority, sequence)` min-heap, and on successive playback-finished
events `_play_next` pops the least such pair next: the resulting playback
order of the queued items equals a stable sort of the requests by
(priority ascending, sequence ascending). -/
theorem playback_order_stable_sort (env : AudioEnv) (s : AMState) (q : PyStr)
    (items : List PlaybackItem)
    (hplay : s.playing = some q)
    (hheap : s.playback_heap = [])
    (htok : ∀ i ∈ items, i.token = s.token)
    (hpri : ∀ i ∈ items, i.priority ≠ 0)
    (hex : ∀ i ∈ items, env.fileExists i.path = true)
    (hord : items.Pairwise fun a b => a.order < b.order) :
    drain (deliverAll env s items)
      = (stableSortByPrioritySeq items).map (fun i => i.path) := by
  have hps : s.playing.isSome := by rw [hplay]; rfl
  rw [deliverAll_push env items s hps htok hpri hex]
  unfold drain
  dsimp only
  rw [hheap]
  have hsym : Symmetric (fun a b : PlaybackItem => a.order ≠ b.order) :=
    fun a b hab => hab.symm
  have hperm : items.foldl heappush [] ~ items := by
    simpa using foldl_heappush_perm items []
  have hsorted : (items.foldl heappush []).Sorted itemLe :=
    foldl_heappush_sorted items [] List.sorted_nil
  have hne : items.Pairwise fun a b => a.order ≠ b.order :=
    hord.imp fun h => Nat.ne_of_lt h
  have hne1 : (items.foldl heappush []).Pairwise fun a b => a.order ≠ b.order :=
    (hperm.pairwise_iff fun h => hsym h).mpr hne
  have hlt1 : (items.foldl heappush []).Sorted itemLt :=
    sorted_lt_of_sorted_le_distinct _ hsorted hne1
  have hperm2 : items.insertionSort itemLe ~ items :=
    List.perm_insertionSort itemLe items
  have hsorted2 : (items.insertionSort itemLe).Sorted itemLe :=
    List.sorted_insertionSort itemLe items
  have hne2 : (items.insertionSort itemLe).Pairwise fun a b => a.order ≠ b.order :=
    (hperm2.pairwise_iff fun h => hsym h).mpr hne
  have hlt2 : (items.insertionSort itemLe).Sorted itemLt :=
    sorted_lt_of_sorted_le_distinct _ hsorted2 hne2
  have heq : items.foldl heappush [] = items.insertionSort itemLe :=
    List.eq_of_perm_of_sorted (hperm.trans hperm2.symm) hlt1 hlt2
  rw [heq]
  exact drainHeap_all_live s.token _ fun i hi => htok i (hperm2.mem_iff.mp hi)

theorem playback_order_stable_sort_witness :
    exPlayingState.playing = some "q".toList ∧
    exPlayingState.playback_heap = [] ∧
    (∀ i ∈ exItems, i.token = exPlayingState.token) ∧
    (∀ i ∈ exItems, i.priority ≠ 0) ∧
    (∀ i ∈ exItems, exEnv.fileExists i.path = true) ∧
    exItems.Pairwise (fun a b => a.order < b.order) ∧
    drain (deliverAll exEnv exPlayingState exItems)
      = (stableSortByPrioritySeq exItems).map (fun i => i.path) :=
  ⟨by decide, by decide, by decide, by decide, by decide, by decide,
    playback_order_stable_sort exEnv exPlayingState "q".toList exItems
      (by decide) (by decide) (by decide) (by decide) (by decide) (by decide)⟩

end Theorems

end Aemeath
